import Mathlib

/-!
Verification development for the SDK installer
`meta/files/toolchain-pyz-extract.py`.

The installer streams a nested tar archive out of a zip container,
extracts its entries to a chosen destination, and textually relocates the
generated `environment-setup-*` scripts from the build-time placeholder
path to the chosen destination.  The definitions below are a shallow
embedding of the pure/algorithmic parts of that script: Python strings
are `List Char` wrapped in `String`, the filesystem is a partial map from
path strings to nodes, and the driver's control flow is modelled as a
function producing an exit code together with a trace of events.
-/

namespace ToolchainInstaller

/-! ## Python string primitives

Python's `in`, `str.replace`, `str.lower` and `str.strip` as used by the
installer, modelled on the character-list view of `String`. -/

/-- Python's substring test `pat in hay` (`hasSub hay pat`): `pat` occurs
contiguously somewhere in `hay`.  The empty pattern occurs in every
string, as in Python. -/
def hasSub : List Char → List Char → Bool
  | [], pat => pat.isPrefixOf ([] : List Char)
  | c :: cs, pat => pat.isPrefixOf (c :: cs) || hasSub cs pat

/-- Python's `sub in s` on `String`. -/
def sIn (sub s : String) : Bool := hasSub s.data sub.data

/-- Fuel-indexed worker for Python's `str.replace`: replaces every
leftmost, non-overlapping occurrence of `old` with `new`, scanning left
to right.  The fuel is only a totality device; with fuel at least
`s.length + 1` it is never exhausted. -/
def pyReplaceFuel : Nat → List Char → List Char → List Char → List Char
  | 0, s, _, _ => s
  | _ + 1, [], old, new => if old = [] then new else []
  | fuel + 1, c :: cs, old, new =>
    if old = [] then new ++ c :: pyReplaceFuel fuel cs old new
    else if old.isPrefixOf (c :: cs) then
      new ++ pyReplaceFuel fuel (cs.drop (old.length - 1)) old new
    else c :: pyReplaceFuel fuel cs old new

/-- Python's `s.replace(old, new)` on character lists. -/
def pyReplace (s old new : List Char) : List Char :=
  pyReplaceFuel (s.length + 1) s old new

/-- Python's `s.replace(old, new)` on `String`. -/
def sReplace (s old new : String) : String :=
  ⟨pyReplace s.data old.data new.data⟩

/-- The whitespace characters matched by Python's `\s` regex class and
stripped by `str.strip()` (ASCII range). -/
def isPySpace (c : Char) : Bool :=
  c = ' ' || c = '\t' || c = '\n' || c = '\r' || c = '\x0B' || c = '\x0C'

/-- Python's `s.lower()` (ASCII case mapping). -/
def pyLower (s : String) : String := ⟨s.data.map Char.toLower⟩

/-- Python's `s.strip()`: drop leading and trailing whitespace. -/
def pyStrip (s : String) : String :=
  ⟨((s.data.dropWhile isPySpace).reverse.dropWhile isPySpace).reverse⟩

/-- Whether the string contains any whitespace character, as tested by
the installer with `re.search(r"\s", destination)`. -/
def hasWhitespace (s : String) : Bool := s.data.any isPySpace

/-- Lexicographic code-point comparison of character lists, matching the
order Python's `sorted` uses on strings. -/
def lexLe : List Char → List Char → Bool
  | [], _ => true
  | _ :: _, [] => false
  | a :: as, b :: bs =>
    if a.toNat < b.toNat then true
    else if b.toNat < a.toNat then false
    else lexLe as bs

/-! ## prompt_bool (source lines 57-65)

`input()` returning a line is `some s`; `EOFError` is `none`.  On EOF or
empty input the default is returned, otherwise the answer is accepted
exactly when it equals "y" after lowercasing then stripping. -/

/-- `prompt_bool(prompt, default)` from the source: the user's input
(`none` models `EOFError`) is reduced to a boolean decision. -/
def prompt_bool (user_input : Option String) (default : Bool) : Bool :=
  match user_input with
  | none => default
  | some s => if s = "" then default else pyStrip (pyLower s) == "y"

/-! ## Version comparison (source lines 126-140) -/

/-- Numeric value of the digits of a version segment (non-digit
characters contribute nothing). -/
def natOfDigits (cs : List Char) : Nat :=
  cs.foldl (fun n c => if c.isDigit then n * 10 + (c.toNat - 48) else n) 0

/-- Split a character list on `.` separators. -/
def splitDot : List Char → List (List Char)
  | [] => [[]]
  | c :: cs =>
    match splitDot cs with
    | [] => [[]]
    | seg :: rest => if c = '.' then [] :: seg :: rest else (c :: seg) :: rest

/-- A version string as its list of numeric segments. -/
def parseVer (s : String) : List Nat := (splitDot s.data).map natOfDigits

/-- Strict multi-segment numeric ordering on segment lists; a proper
prefix (fewer segments) sorts first. -/
def vLt : List Nat → List Nat → Bool
  | [], [] => false
  | [], _ :: _ => true
  | _ :: _, [] => false
  | a :: as, b :: bs =>
    if a < b then true else if b < a then false else vLt as bs

/-- Modelled from the spec: `ver_lteq` in the source pipes the two
version strings through the external `sort -V` process and reports
whether the first input came out first, i.e. a general version-ordering
comparison in which version strings are compared segment-wise
numerically and may have differing segment counts.  The external sort is
modelled as this multi-segment numeric comparison of the dot-separated
numeric fields, with equality of the strings as the tie case. -/
def ver_lteq (a b : String) : Bool := vLt (parseVer a) (parseVer b) || a == b

/-- `ver_lt` from the source: equal strings are not less; otherwise
defer to `ver_lteq`. -/
def ver_lt (a b : String) : Bool := if a = b then false else ver_lteq a b

/-! ## Archive entries and the filesystem model

Tar members carry a name, a size and a type; the filesystem at the
destination is a partial map from path strings to nodes.  A symlink node
records its target path. -/

/-- The type of a tar member / filesystem node payload. -/
inductive EntryType where
  | file
  | dir
  | symlink (target : String)
deriving DecidableEq

/-- An inner-archive entry (tar member): `f.name` and `f.size` as used
by the extraction loop. -/
structure Entry where
  name : String
  size : Nat
  etype : EntryType
deriving DecidableEq

/-- A node present on the filesystem. -/
inductive FSNode where
  | file
  | dir
  | symlink (target : String)
deriving DecidableEq

/-- The filesystem: a partial map from path strings to nodes (`none`
means no entry exists at that path). -/
def FS : Type := String → Option FSNode

/-- The node a freshly materialized entry leaves on disk. -/
def nodeOf : EntryType → FSNode
  | EntryType.file => FSNode.file
  | EntryType.dir => FSNode.dir
  | EntryType.symlink t => FSNode.symlink t

/-- `os.path.join(destination, f.name)` for the relative member names
produced by the archive. -/
def pathJoin (a b : String) : String := a ++ "/" ++ b

/-- `os.path.lexists(p)`: some entry (including a dangling symlink) is
present at `p`; symlinks are not followed. -/
def lexists (fs : FS) (p : String) : Bool := (fs p).isSome

/-- `os.path.islink(p)`. -/
def islink (fs : FS) (p : String) : Bool :=
  match fs p with
  | some (FSNode.symlink _) => true
  | _ => false

/-- `os.path.isdir(p)` restricted to the non-symlink case.  (Python's
`isdir` follows symlinks, but in the extraction guard it is only
consulted when `islink p` is false, thanks to the short-circuiting `or`;
there it coincides with this direct check.) -/
def isdir (fs : FS) (p : String) : Bool :=
  match fs p with
  | some FSNode.dir => true
  | _ => false

/-- `os.unlink(p)`. -/
def unlink (fs : FS) (p : String) : FS :=
  fun q => if q = p then none else fs q

/-- Source lines 321-325: if the destination exists and is a symlink or
is not a directory, remove it; otherwise leave the filesystem alone. -/
def removeConflicting (fs : FS) (dest : String) : FS :=
  if lexists fs dest && (islink fs dest || !isdir fs dest) then unlink fs dest
  else fs

/-- `tf.extract(f, destination)`, written to the already-joined path
`dest`.  When a symlink still occupies `dest`, extraction does not
replace the link: writing a regular file opens the path and therefore
follows the link to its target, while creating a directory or symlink at
an occupied path fails or is a no-op (`FileExistsError`) — this is
exactly the behaviour the preceding unlink exists to rule out.  On an
unoccupied (or plain) path the entry is materialized at `dest`. -/
def materialize (fs : FS) (dest : String) (e : Entry) : FS :=
  fun q =>
    match fs dest with
    | some (FSNode.symlink t) =>
      match e.etype with
      | EntryType.file => if q = t then some FSNode.file else fs q
      | _ => fs q
    | _ => if q = dest then some (nodeOf e.etype) else fs q

/-- `extract_file(tf, f)` from source lines 316-328 (the byte/checkpoint
counters are modelled separately below): compute the joined destination
path, remove a conflicting existing entry, then materialize the member.
-/
def extract_file (fs : FS) (destination : String) (e : Entry) : FS :=
  let dest := pathJoin destination e.name
  materialize (removeConflicting fs dest) dest e

/-! ## Exclusion filter and the extraction loop (source lines 338-342) -/

/-- `any(s in f.name for s in extract_exclude)`. -/
def pyAnyIn (excl : List String) (name : String) : Bool :=
  excl.any (fun s => sIn s name)

/-- The sequence of entries the extraction loop materializes: entries
are visited in stream order and skipped exactly when their name contains
one of the excluded fragments. -/
def extractRun (entries : List Entry) (excl : List String) : List Entry :=
  entries.foldl (fun acc e => if pyAnyIn excl e.name then acc else acc ++ [e]) []

/-! ## Progress checkpoints (source lines 312-336) -/

/-- The fixed checkpoint threshold from the source. -/
def CHECKPOINT : Nat := 25600000

/-- One iteration of the counter updates in `extract_file`: add the
entry size to `current_size`, then print
`current_size // CHECKPOINT - printed_checkpoints` dots and add that
count to `printed_checkpoints`.  The state is
`(current_size, printed_checkpoints)`; since every emitted tick bumps
`printed_checkpoints` by one, the second component is also the total
number of ticks emitted so far. -/
def progressStep (st : Nat × Nat) (size : Nat) : Nat × Nat :=
  let current := st.1 + size
  let num := current / CHECKPOINT - st.2
  (current, st.2 + num)

/-- Run the counters over the sizes of the extracted entries, starting
from `current_size = 0`, `printed_checkpoints = 0`. -/
def progressFold (sizes : List Nat) : Nat × Nat :=
  sizes.foldl progressStep (0, 0)

/-- Total number of progress ticks emitted for a run extracting entries
of the given sizes. -/
def ticksEmitted (sizes : List Nat) : Nat := (progressFold sizes).2

/-! ## Relocation (source lines 358-377)

`relocate_file(name)` reads the file line by line; each line has every
occurrence of `SDKPATH` replaced with `destination` and is written to a
temp file that finally replaces the original, and the function returns
whether any (pre-replacement) line contained the marker
`"OECORE_NATIVE_SYSROOT="`.  A file is its list of lines. -/

/-- The canonical-script marker substring from the source. -/
def MARKER : String := "OECORE_NATIVE_SYSROOT="

/-- `relocate_file` as a content transformation: the rewritten lines
together with the `is_real_env_script` flag. -/
def relocate_file (sdkpath destination : String) (lines : List String) :
    List String × Bool :=
  (lines.map (fun l => sReplace l sdkpath destination),
   lines.any (fun l => sIn MARKER l))

/-! ## Environment-setup script enumeration and selection
(source lines 68-71 and 379-387) -/

/-- A generated script on disk: its path name and its contents. -/
structure Script where
  name : String
  lines : List String
deriving DecidableEq

/-- Insert a script into a name-sorted list. -/
def insertSorted (s : Script) : List Script → List Script
  | [] => [s]
  | t :: ts =>
    if lexLe s.name.data t.name.data then s :: t :: ts else t :: insertSorted s ts

/-- Sort scripts by name (insertion sort), in the code-point order
Python's `sorted` uses. -/
def sortScripts (l : List Script) : List Script := l.foldr insertSorted []

/-- `environment_setup_scripts(destination)`: the glob matches of
`environment-setup-*` (here: the given candidate scripts), sorted by
name. -/
def environment_setup_scripts (scripts : List Script) : List Script :=
  sortScripts scripts

/-- Whether a script's contents contain the canonical marker; this is
definitionally the flag `relocate_file` returns for its lines. -/
def hasMarkerScript (s : Script) : Bool := s.lines.any (fun l => sIn MARKER l)

/-- Source lines 379-382: relocate every candidate in name-sorted order,
remembering the name of the last one whose `relocate_file` call reported
the marker. -/
def selectCanonical (sdkpath destination : String) (scripts : List Script) :
    Option String :=
  (environment_setup_scripts scripts).foldl
    (fun acc s => if (relocate_file sdkpath destination s.lines).2 then some s.name else acc)
    none

/-- Spec-side selector, following the spec's words: "track the last one
found to be canonical" among the name-sorted scripts — the last script
in the list that contains the marker. -/
def specLastCanonical : List Script → Option String
  | [] => none
  | s :: ts =>
    match specLastCanonical ts with
    | some n => some n
    | none => if hasMarkerScript s then some s.name else none

/-- Python truthiness of the `real_env_setup_script` variable (`None`
and the empty string are falsy). -/
def pyTruthyStr : Option String → Bool
  | none => false
  | some s => !(s == "")

/-- The `env_setup_script` local after source lines 384-385: it is
assigned only when `real_env_setup_script` is truthy, and is otherwise
left unbound (`none`). -/
def envSetupScriptVar (sdkpath destination : String) (scripts : List Script) :
    Option String :=
  let real := selectCanonical sdkpath destination scripts
  if pyTruthyStr real then real else none

/-- The first subsequent reference to `env_setup_script` (source line
387): reading an unbound local raises `NameError`
(`UnboundLocalError`). -/
def referenceEnvSetupScript (sdkpath destination : String)
    (scripts : List Script) : Except String String :=
  match envSetupScriptVar sdkpath destination scripts with
  | some n => Except.ok n
  | none => Except.error "NameError: env_setup_script is not defined"

/-! ## Driver trace after the compatibility gate (source lines 244-345)

The driver is modelled as a function from the resolved destination, the
confirmation outcome and the archive contents to an exit code and the
ordered trace of externally visible actions.  The pre-install hook (an
opaque external collaborator, run at source line 245 before the
destination is even chosen) appears in the trace; the installer's own
filesystem mutations — creating the destination directory and writing
entries — only happen after the destination validation and the
confirmation succeed, mirroring the order of the guards in `main`. -/

/-- Externally visible driver actions. -/
inductive Event where
  | runPreInstallHook
  | mkdirDestination (dir : String)
  | writeEntry (path : String)
  | runPostInstallHook
deriving DecidableEq

/-- Whether an event mutates the install tree (creates the destination
directory or writes an extracted entry). -/
def mutatesInstallTree : Event → Bool
  | Event.mkdirDestination _ => true
  | Event.writeEntry _ => true
  | _ => false

/-- `main` from the pre-install hook onward: validate the resolved
destination (length bound, then whitespace), then the confirmation
prompt outcome, then list-only mode, and only then create the
destination directory and extract the non-excluded entries.  Returns the
process exit code and the event trace. -/
def installAfterCompat (destination : String) (proceed listOnly : Bool)
    (entries : List Entry) (excl : List String) : Nat × List Event :=
  let pre : List Event := [Event.runPreInstallHook]
  if 2048 < destination.length then (1, pre)
  else if hasWhitespace destination then (1, pre)
  else if !proceed then (1, pre)
  else if listOnly then (0, pre)
  else
    (0, pre ++ Event.mkdirDestination destination ::
      (extractRun entries excl).map
        (fun e => Event.writeEntry (pathJoin destination e.name)) ++
      [Event.runPostInstallHook])

/-! ## Concrete data used by witnesses -/

/-- A filesystem holding a symlink to an unrelated location at the path
an entry is about to be extracted to. -/
def fsC1 : FS := fun p =>
  if p = "/inst/f" then some (FSNode.symlink "/etc/passwd") else none

/-- A regular-file entry named `f`. -/
def entC1 : Entry := ⟨"f", 10, EntryType.file⟩

/-- A filesystem holding a real directory at the extraction path. -/
def fsC10 : FS := fun p => if p = "/inst/d" then some FSNode.dir else none

/-- An entry that no exclusion fragment matches. -/
def entC3 : Entry := ⟨"usr/bin/tool", 5, EntryType.file⟩

/-- Two extracted entries whose sizes total exactly `2 * CHECKPOINT`. -/
def entsC6 : List Entry :=
  [⟨"a", 25600000, EntryType.file⟩, ⟨"b", 25600000, EntryType.file⟩]

/-! ## Helper lemmas -/

theorem pyReplaceFuel_of_not_hasSub :
    ∀ (fuel : Nat) (s old new : List Char), hasSub s old = false →
      pyReplaceFuel fuel s old new = s := by
  intro fuel
  induction fuel with
  | zero => intro s old new _; rfl
  | succ fuel ih =>
    intro s old new h
    match s with
    | [] =>
      have hne : old ≠ [] := by
        intro he
        subst he
        simp [hasSub, List.isPrefixOf] at h
      simp only [pyReplaceFuel]
      simp [hne]
    | c :: cs =>
      have h1 : old.isPrefixOf (c :: cs) = false ∧ hasSub cs old = false := by
        simpa [hasSub] using h
      have hne : old ≠ [] := by
        intro he
        subst he
        simp [List.isPrefixOf] at h1
      simp only [pyReplaceFuel]
      rw [if_neg hne, if_neg (by simp [h1.1]), ih cs old new h1.2]

theorem pyReplace_of_not_hasSub (s old new : List Char)
    (h : hasSub s old = false) : pyReplace s old new = s :=
  pyReplaceFuel_of_not_hasSub (s.length + 1) s old new h

theorem sReplace_of_not_sIn (s old new : String) (h : sIn old s = false) :
    sReplace s old new = s := by
  have hd := pyReplace_of_not_hasSub s.data old.data new.data h
  simp only [sReplace]
  rw [hd]

theorem map_sReplace_id (sdkpath destination : String) :
    ∀ L : List String, (∀ l ∈ L, sIn sdkpath l = false) →
      L.map (fun l => sReplace l sdkpath destination) = L := by
  intro L
  induction L with
  | nil => intro _; rfl
  | cons a t ih =>
    intro h
    simp only [List.map_cons]
    rw [sReplace_of_not_sIn a _ _ (h a (List.mem_cons_self a t)),
      ih (fun x hx => h x (List.mem_cons_of_mem a hx))]

theorem removeConflicting_unlink (fs : FS) (d : String)
    (hex : lexists fs d = true)
    (hc : islink fs d = true ∨ isdir fs d = false) :
    removeConflicting fs d = unlink fs d := by
  have hcond : (lexists fs d && (islink fs d || !isdir fs d)) = true := by
    rcases hc with h | h <;> simp [hex, h]
  simp [removeConflicting, hcond]

theorem materialize_unlinked (fs : FS) (d : String) (e : Entry) :
    materialize (unlink fs d) d e d = some (nodeOf e.etype) := by
  have h0 : unlink fs d d = none := by simp [unlink]
  simp [materialize, h0]

theorem extractRun_eq_filter (entries : List Entry) (excl : List String) :
    extractRun entries excl
      = entries.filter (fun e => !pyAnyIn excl e.name) := by
  have key : ∀ (l : List Entry) (acc : List Entry),
      l.foldl (fun acc e => if pyAnyIn excl e.name then acc else acc ++ [e]) acc
        = acc ++ l.filter (fun e => !pyAnyIn excl e.name) := by
    intro l
    induction l with
    | nil => intro acc; simp
    | cons e t ih =>
      intro acc
      rw [List.foldl_cons]
      by_cases hp : pyAnyIn excl e.name = true
      · rw [if_pos hp, ih]
        simp [List.filter_cons, hp]
      · rw [if_neg hp, ih]
        simp only [Bool.not_eq_true] at hp
        simp [List.filter_cons, hp]
  simpa [extractRun] using key entries []

theorem progressFold_inv :
    ∀ (sizes : List Nat) (c p : Nat), p = c / CHECKPOINT →
      (sizes.foldl progressStep (c, p)).2 = (c + sizes.sum) / CHECKPOINT := by
  intro sizes
  induction sizes with
  | nil => intro c p h; simpa using h
  | cons s t ih =>
    intro c p h
    have hle : p ≤ (c + s) / CHECKPOINT := by
      rw [h]
      exact Nat.div_le_div_right (Nat.le_add_right c s)
    have hstep : progressStep (c, p) s = (c + s, (c + s) / CHECKPOINT) := by
      simp only [progressStep]
      rw [Nat.add_sub_cancel' hle]
    rw [List.foldl_cons, hstep, ih (c + s) _ rfl]
    simp [Nat.add_assoc]

theorem foldl_select_eq (sdkpath destination : String) :
    ∀ (l : List Script) (acc : Option String),
      l.foldl (fun acc s =>
          if (relocate_file sdkpath destination s.lines).2 then some s.name
          else acc) acc
        = match specLastCanonical l with
          | some n => some n
          | none => acc := by
  intro l
  induction l with
  | nil => intro acc; rfl
  | cons s ts ih =>
    intro acc
    rw [List.foldl_cons, ih]
    have hrel : (relocate_file sdkpath destination s.lines).2 = hasMarkerScript s :=
      rfl
    simp only [specLastCanonical, hrel]
    cases hts : specLastCanonical ts with
    | some n => rfl
    | none =>
      by_cases hm : hasMarkerScript s = true
      · simp [hm]
      · simp [hm]

theorem selectCanonical_eq_spec (sdkpath destination : String)
    (scripts : List Script) :
    selectCanonical sdkpath destination scripts
      = specLastCanonical (environment_setup_scripts scripts) := by
  have key := foldl_select_eq sdkpath destination (environment_setup_scripts scripts) none
  simp only [selectCanonical]
  rw [key]
  cases specLastCanonical (environment_setup_scripts scripts) <;> rfl

theorem specLastCanonical_eq_none : ∀ l : List Script,
    (∀ s ∈ l, hasMarkerScript s = false) → specLastCanonical l = none := by
  intro l
  induction l with
  | nil => intro _; rfl
  | cons s ts ih =>
    intro h
    simp only [specLastCanonical]
    rw [ih (fun x hx => h x (List.mem_cons_of_mem s hx))]
    simp [h s (List.mem_cons_self s ts)]

theorem specLastCanonical_eq_some : ∀ (l : List Script) (n : String),
    specLastCanonical l = some n →
      ∃ s ∈ l, hasMarkerScript s = true ∧ s.name = n := by
  intro l
  induction l with
  | nil => intro n h; exact absurd h (by simp [specLastCanonical])
  | cons s ts ih =>
    intro n h
    simp only [specLastCanonical] at h
    cases hts : specLastCanonical ts with
    | some m =>
      rw [hts] at h
      simp at h
      obtain ⟨x, hx, hmx, hnx⟩ := ih m hts
      exact ⟨x, List.mem_cons_of_mem s hx, hmx, by rw [hnx, h]⟩
    | none =>
      rw [hts] at h
      by_cases hm : hasMarkerScript s = true
      · simp [hm] at h
        exact ⟨s, List.mem_cons_self s ts, hm, h⟩
      · simp [hm] at h

theorem mem_insertSorted (s t : Script) : ∀ l : List Script,
    s ∈ insertSorted t l ↔ s = t ∨ s ∈ l := by
  intro l
  induction l with
  | nil => simp [insertSorted]
  | cons u us ih =>
    simp only [insertSorted]
    by_cases hle : lexLe t.name.data u.name.data = true
    · rw [if_pos hle]
      simp [List.mem_cons]
    · rw [if_neg hle]
      simp only [List.mem_cons, ih]
      tauto

theorem mem_sortScripts : ∀ (l : List Script) (s : Script),
    s ∈ sortScripts l ↔ s ∈ l := by
  intro l
  induction l with
  | nil => intro s; simp [sortScripts]
  | cons t ts ih =>
    intro s
    show s ∈ insertSorted t (sortScripts ts) ↔ s ∈ t :: ts
    rw [mem_insertSorted, ih s]
    simp [List.mem_cons]

/-! ## Claim theorems -/

/-- C1: when the computed destination path of an entry already holds an
existing filesystem entry that is a symlink or is not a directory,
`extract_file` first removes it (`removeConflicting` performs the
unlink), and after extraction the path holds the freshly materialized
entry while every other path — in particular a pre-existing symlink's
target — is untouched, so writing never follows a pre-existing symlink
to an unrelated location. -/
theorem extract_file_replaces_conflicting_dest (fs : FS) (destination : String)
    (e : Entry) (d : String) (hd : d = pathJoin destination e.name)
    (hex : lexists fs d = true)
    (hc : islink fs d = true ∨ isdir fs d = false) :
    removeConflicting fs d = unlink fs d ∧
    extract_file fs destination e d = some (nodeOf e.etype) ∧
    ∀ p, p ≠ d → extract_file fs destination e p = fs p := by
  subst hd
  refine ⟨removeConflicting_unlink fs _ hex hc, ?_, ?_⟩
  · show materialize (removeConflicting fs (pathJoin destination e.name))
      (pathJoin destination e.name) e (pathJoin destination e.name)
        = some (nodeOf e.etype)
    rw [removeConflicting_unlink fs _ hex hc]
    exact materialize_unlinked fs _ e
  · intro p hp
    show materialize (removeConflicting fs (pathJoin destination e.name))
      (pathJoin destination e.name) e p = fs p
    rw [removeConflicting_unlink fs _ hex hc]
    have h0 : unlink fs (pathJoin destination e.name)
        (pathJoin destination e.name) = none := by
      simp [unlink]
    simp [materialize, h0, unlink, hp]

/-- Witness for C1: a concrete filesystem with a symlink to
`/etc/passwd` at the extraction path of entry `f`. -/
theorem extract_file_replaces_conflicting_dest_witness :
    removeConflicting fsC1 (pathJoin "/inst" "f")
      = unlink fsC1 (pathJoin "/inst" "f") ∧
    extract_file fsC1 "/inst" entC1 (pathJoin "/inst" "f")
      = some (nodeOf entC1.etype) ∧
    ∀ p, p ≠ pathJoin "/inst" "f" →
      extract_file fsC1 "/inst" entC1 p = fsC1 p :=
  extract_file_replaces_conflicting_dest fsC1 "/inst" entC1
    (pathJoin "/inst" "f") rfl (by decide) (Or.inl (by decide))

/-- C10: when the destination path of an entry already exists as a real
directory (present, not a symlink, and a directory), the removal step of
`extract_file` leaves the filesystem unchanged — the directory is kept in
place; and whenever the removal step does change the filesystem, the
existing entry was a symlink or a non-directory. -/
theorem removeConflicting_preserves_real_dir (fs : FS) (dest : String) :
    (fs dest = some FSNode.dir → removeConflicting fs dest = fs) ∧
    (removeConflicting fs dest ≠ fs →
      lexists fs dest = true ∧
        (islink fs dest = true ∨ isdir fs dest = false)) := by
  by_cases hcond : (lexists fs dest && (islink fs dest || !isdir fs dest)) = true
  · have hc2 := hcond
    simp only [Bool.and_eq_true, Bool.or_eq_true, Bool.not_eq_true'] at hc2
    constructor
    · intro hdir
      exfalso
      have h2 : islink fs dest = false := by simp [islink, hdir]
      have h3 : isdir fs dest = true := by simp [isdir, hdir]
      rcases hc2.2 with h | h
      · simp [h2] at h
      · simp [h3] at h
    · intro _
      exact hc2
  · have heq : removeConflicting fs dest = fs := by
      simp [removeConflicting, hcond]
    exact ⟨fun _ => heq, fun hne => absurd heq hne⟩

/-- Witness for C10: a concrete filesystem with a real directory at the
extraction path; the removal step is the identity. -/
theorem removeConflicting_preserves_real_dir_witness :
    removeConflicting fsC10 "/inst/d" = fsC10 :=
  (removeConflicting_preserves_real_dir fsC10 "/inst/d").1 (by decide)

/-- C3: the entries the extraction loop materializes are exactly the
archive's entries minus those whose name contains an excluded fragment
as a substring; and the match really is a substring match, not a
path-segment match (the fragment `sstate-cache` also excludes a name
whose segment merely contains it). -/
theorem extraction_materializes_filtered (entries : List Entry)
    (excl : List String) :
    (∀ e, e ∈ extractRun entries excl ↔
      e ∈ entries ∧ ¬ ∃ s ∈ excl, sIn s e.name = true) ∧
    pyAnyIn ["sstate-cache"] "opt/sstate-cachedir/f" = true := by
  constructor
  · intro e
    rw [extractRun_eq_filter]
    simp [List.mem_filter, pyAnyIn, List.any_eq_true]
  · decide

/-- Witness for C3 at a concrete entry and exclusion set. -/
theorem extraction_materializes_filtered_witness :
    entC3 ∈ extractRun [entC3] ["cache"] ↔
      entC3 ∈ [entC3] ∧ ¬ ∃ s ∈ ["cache"], sIn s entC3.name = true :=
  (extraction_materializes_filtered [entC3] ["cache"]).1 entC3

/-- C6: the number of progress ticks emitted while extracting the
non-excluded entries equals the accumulated byte total divided
(flooring) by the checkpoint threshold; in particular a run totalling
exactly `2 * CHECKPOINT` bytes emits exactly 2 ticks, regardless of how
many entries produced that total. -/
theorem progress_ticks_eq_quotient (entries : List Entry)
    (excl : List String) :
    ticksEmitted ((extractRun entries excl).map Entry.size)
      = ((extractRun entries excl).map Entry.size).sum / CHECKPOINT ∧
    (((extractRun entries excl).map Entry.size).sum = 2 * CHECKPOINT →
      ticksEmitted ((extractRun entries excl).map Entry.size) = 2) := by
  have hgen : ∀ sizes : List Nat, ticksEmitted sizes = sizes.sum / CHECKPOINT := by
    intro sizes
    have key := progressFold_inv sizes 0 0 (by simp)
    simpa [ticksEmitted, progressFold] using key
  refine ⟨hgen _, ?_⟩
  intro h2
  rw [hgen _, h2]
  decide

/-- Witness for C6: two entries of `CHECKPOINT` bytes each emit exactly
two ticks. -/
theorem progress_ticks_eq_quotient_witness :
    ticksEmitted ((extractRun entsC6 []).map Entry.size) = 2 :=
  (progress_ticks_eq_quotient entsC6 []).2 (by decide)

/-- C7: `ver_lt` orders version strings by multi-segment numeric
comparison, not lexicographically: `ver_lt "3.10" "3.9"` is false,
`ver_lt "3.9" "3.10"` is true, strings with differing segment counts
compare correctly, and the code-point lexicographic order disagrees on
the same pair. -/
theorem ver_lt_numeric_not_lexicographic :
    ver_lt "3.10" "3.9" = false ∧
    ver_lt "3.9" "3.10" = true ∧
    ver_lt "3.9" "3.9.1" = true ∧
    ver_lt "3.9.1" "3.9" = false ∧
    ver_lt "4.18.0" "5.4" = true ∧
    lexLe "3.9".data "3.10".data = false := by
  decide

/-- C9: the confirmation prompt yields its default on end-of-file or
empty input, accepts a non-empty answer exactly when it equals "y" after
lowercasing then stripping whitespace, and therefore treats "yes" as
declining. -/
theorem prompt_bool_semantics (default : Bool) (s : String) (h : s ≠ "") :
    prompt_bool none default = default ∧
    prompt_bool (some "") default = default ∧
    (prompt_bool (some s) default = true ↔ pyStrip (pyLower s) = "y") ∧
    prompt_bool (some "yes") default = false := by
  refine ⟨rfl, ?_, ?_, ?_⟩
  · simp [prompt_bool]
  · simp only [prompt_bool]
    rw [if_neg h]
    simp [beq_iff_eq]
  · have hne : ("yes" : String) ≠ "" := by decide
    simp only [prompt_bool]
    rw [if_neg hne]
    decide

/-- Witness for C9 at the input "yes" with default `true`. -/
theorem prompt_bool_semantics_witness :
    prompt_bool none true = true ∧
    prompt_bool (some "") true = true ∧
    (prompt_bool (some "yes") true = true ↔ pyStrip (pyLower "yes") = "y") ∧
    prompt_bool (some "yes") true = false :=
  prompt_bool_semantics true "yes" (by decide)

/-- C2 counterexample: relocation is not idempotent for every pair of
prefixes.  With old prefix `/opt`, new prefix `/opt/x` and a file whose
single line is `/opt`, one run yields `/opt/x` and a second run yields
`/opt/x/x`, so running `relocate_file` twice does not equal running it
once. -/
theorem relocate_file_not_idempotent_cex :
    (relocate_file "/opt" "/opt/x"
        ((relocate_file "/opt" "/opt/x" ["/opt"]).1)).1
      ≠ (relocate_file "/opt" "/opt/x" ["/opt"]).1 := by
  decide

/-- C2 (amended): if the old prefix no longer occurs in the
once-relocated contents — which holds whenever the replacement does not
reintroduce it — a second `relocate_file` run with the same arguments
yields the same contents as the first; and replacing an old prefix that
does not occur in the input is a no-op. -/
theorem relocate_file_idempotent_of_placeholder_gone
    (sdkpath destination : String) (lines : List String) :
    ((relocate_file sdkpath destination lines).1.all
        (fun l => !sIn sdkpath l) = true →
      (relocate_file sdkpath destination
          ((relocate_file sdkpath destination lines).1)).1
        = (relocate_file sdkpath destination lines).1) ∧
    (lines.all (fun l => !sIn sdkpath l) = true →
      (relocate_file sdkpath destination lines).1 = lines) := by
  constructor
  · intro h
    have h' : ∀ l ∈ (relocate_file sdkpath destination lines).1,
        sIn sdkpath l = false := by
      intro l hl
      simpa using List.all_eq_true.mp h l hl
    exact map_sReplace_id sdkpath destination _ h'
  · intro h
    have h' : ∀ l ∈ lines, sIn sdkpath l = false := by
      intro l hl
      simpa using List.all_eq_true.mp h l hl
    exact map_sReplace_id sdkpath destination lines h'

/-- Witness for C2 (amended): a realistic relocation, run twice, equals
the single run because the placeholder is gone after the first pass. -/
theorem relocate_file_idempotent_witness :
    (relocate_file "/opt/poky" "/home/u/sdk"
        ((relocate_file "/opt/poky" "/home/u/sdk"
          ["export X=/opt/poky/bin"]).1)).1
      = (relocate_file "/opt/poky" "/home/u/sdk"
          ["export X=/opt/poky/bin"]).1 :=
  (relocate_file_idempotent_of_placeholder_gone "/opt/poky" "/home/u/sdk"
    ["export X=/opt/poky/bin"]).1 (by decide)

/-- C4: a destination path longer than 2048 characters or containing
whitespace makes the driver exit with code 1, and its trace contains no
event that mutates the install tree — no directory is created and no
entry is written. -/
theorem destination_validation_rejects (destination : String)
    (proceed listOnly : Bool) (entries : List Entry) (excl : List String)
    (h : 2048 < destination.length ∨ hasWhitespace destination = true) :
    (installAfterCompat destination proceed listOnly entries excl).1 = 1 ∧
    (installAfterCompat destination proceed listOnly entries excl).2.all
      (fun ev => !mutatesInstallTree ev) = true := by
  rcases h with h | h
  · simp [installAfterCompat, h, mutatesInstallTree]
  · by_cases hl : 2048 < destination.length
    · simp [installAfterCompat, hl, mutatesInstallTree]
    · simp [installAfterCompat, hl, h, mutatesInstallTree]

/-- Witness for C4: a destination containing spaces is rejected with
exit code 1 and no mutating event. -/
theorem destination_validation_rejects_witness :
    (installAfterCompat "/opt my sdk" true false [] []).1 = 1 ∧
    (installAfterCompat "/opt my sdk" true false [] []).2.all
      (fun ev => !mutatesInstallTree ev) = true :=
  destination_validation_rejects "/opt my sdk" true false [] []
    (Or.inr (by decide))

/-- C5: the driver's selection over the name-sorted candidates is
exactly "the last script whose contents contain the canonical marker";
with candidates `environment-setup-a` (no marker) and
`environment-setup-b` (marker), `environment-setup-b` is selected in
either presentation order. -/
theorem canonical_script_selection (sdkpath destination : String)
    (scripts : List Script) :
    selectCanonical sdkpath destination scripts
      = specLastCanonical (environment_setup_scripts scripts) ∧
    selectCanonical "/opt/poky" "/home/u/sdk"
        [⟨"environment-setup-a", ["export PATH=/opt/poky/bin"]⟩,
         ⟨"environment-setup-b",
           ["export OECORE_NATIVE_SYSROOT=/opt/poky/sysroots"]⟩]
      = some "environment-setup-b" ∧
    selectCanonical "/opt/poky" "/home/u/sdk"
        [⟨"environment-setup-b",
           ["export OECORE_NATIVE_SYSROOT=/opt/poky/sysroots"]⟩,
         ⟨"environment-setup-a", ["export PATH=/opt/poky/bin"]⟩]
      = some "environment-setup-b" :=
  ⟨selectCanonical_eq_spec sdkpath destination scripts, by decide, by decide⟩

/-- Witness for C5 at a concrete (empty) candidate list. -/
theorem canonical_script_selection_witness :
    selectCanonical "/opt/p" "/h" []
      = specLastCanonical (environment_setup_scripts []) :=
  (canonical_script_selection "/opt/p" "/h" []).1

/-- C8: if no candidate script contains the canonical marker (including
when there are no candidates at all), `env_setup_script` is never
assigned and the subsequent reference to it raises a NameError;
conversely a successful reference implies some candidate contained the
marker. -/
theorem missing_canonical_script_name_error (sdkpath destination : String)
    (scripts : List Script) :
    ((∀ s ∈ scripts, hasMarkerScript s = false) →
      referenceEnvSetupScript sdkpath destination scripts
        = Except.error "NameError: env_setup_script is not defined") ∧
    (∀ n, referenceEnvSetupScript sdkpath destination scripts = Except.ok n →
      ∃ s ∈ scripts, hasMarkerScript s = true) := by
  constructor
  · intro h
    have hnone : specLastCanonical (environment_setup_scripts scripts) = none :=
      specLastCanonical_eq_none _
        (fun s hs => h s ((mem_sortScripts scripts s).mp hs))
    simp [referenceEnvSetupScript, envSetupScriptVar, selectCanonical_eq_spec,
      hnone, pyTruthyStr]
  · intro n hn
    simp only [referenceEnvSetupScript] at hn
    cases hv : envSetupScriptVar sdkpath destination scripts with
    | none => rw [hv] at hn; exact absurd hn (by simp)
    | some m =>
      rw [hv] at hn
      have hsel : selectCanonical sdkpath destination scripts = some m := by
        simp only [envSetupScriptVar] at hv
        by_cases ht : pyTruthyStr (selectCanonical sdkpath destination scripts) = true
        · simpa [ht] using hv
        · simp [ht] at hv
      rw [selectCanonical_eq_spec] at hsel
      obtain ⟨s, hs, hm, _⟩ := specLastCanonical_eq_some _ m hsel
      exact ⟨s, (mem_sortScripts scripts s).mp hs, hm⟩

/-- Witness for C8: with no candidate scripts at all the reference is a
NameError. -/
theorem missing_canonical_script_name_error_witness :
    referenceEnvSetupScript "/opt/poky" "/home/u/sdk" []
      = Except.error "NameError: env_setup_script is not defined" :=
  (missing_canonical_script_name_error "/opt/poky" "/home/u/sdk" []).1
    (fun s hs => absurd hs (List.not_mem_nil s))

end ToolchainInstaller
